import Mathlib

/-
Verification of the battle-game core (Move modules `pokemon::stats`,
`pokemon::pokemon_v1`, `prototype::battle`, `prototype::arena_pvp`)
against its natural-language specification.

Shallow embedding notes:
- Move `u8`/`u64` values are modelled as `Nat`.  Move integer arithmetic
  aborts on overflow (it never wraps) and on division by zero; those abort
  paths are modelled explicitly: the `u8` increment `arena.round + 1` in
  `reveal` aborts past 255, and every potentially aborting `u64` operation
  of the damage pipeline (`damage` and the effectiveness/STAB
  multiplications of `battle::attack`) is checked against `U64_MAX` and
  zero divisors in the source's evaluation order.  Because checked
  arithmetic aborts instead of wrapping, a successful run computes exactly
  the unbounded values.  The few remaining unchecked spots are provably
  below their width for every argument the embedding can pass them
  (e.g. `10 + smooth b <= 59 < 256`, `value % 38 + 217 <= 254 < 256`,
  divisions by the non-zero constants 5, 50, 255 and 10).
- `sui::hash::blake2b256` is framework code external to this repository;
  it is modelled as an explicit function parameter `hash : Bytes -> Bytes`
  of every operation that uses it.  All theorems are proved for an
  arbitrary `hash`, hence in particular for blake2b-256.
- Move aborts make the whole transaction atomic.  Operations are embedded
  as total functions into `Except Err Arena`: an `.error` result produces
  no successor state, so "state unchanged on failure" holds by
  construction.
- `option::fill` aborts when the option already holds a value; this is the
  `Err.optionAlreadyFilled` outcome.  `vector::borrow` out of range is
  `Err.indexOutOfBounds`.
-/

/-- Byte sequences (`vector<u8>`); each entry is a byte value. -/
abbrev Bytes := List Nat

/-- `pokemon::stats::Stats`. -/
structure Stats where
  hp : Nat
  attack : Nat
  defence : Nat
  special_attack : Nat
  special_defence : Nat
  speed : Nat
  level : Nat
  types : Bytes
deriving Repr, DecidableEq

/-- Abort codes of the embedded modules plus the Move VM aborts that the
code can hit (`option::fill` on a filled option, `vector::borrow` out of
range, integer overflow, division by zero). -/
inductive Err where
  | eArenaNotReady
  | eArenaOver
  | ePlayerOneNotReady
  | eMoveAlreadySubmitted
  | eUnknownSender
  | eInvalidCommitment
  | eYouCantTrickMe
  | eIncorrectLevel
  | eIncorrectRandomValue
  | eIncorrectMovePower
  | eWrongMove
  | optionAlreadyFilled
  | indexOutOfBounds
  | arithmeticOverflow
  | divisionByZero
deriving Repr, DecidableEq

/-- `pokemon::stats::SCALING_FACTOR` (10^8). -/
def SCALING_FACTOR : Nat := 100000000

/-- `pokemon::stats::new`: asserts `level <= 100`, scales `hp`. -/
def Stats.new (hp attack defence special_attack special_defence speed level : Nat)
    (types : Bytes) : Except Err Stats :=
  if level ≤ 100 then
    .ok { hp := hp * SCALING_FACTOR, attack, defence, special_attack,
          special_defence, speed, level, types }
  else .error .eIncorrectLevel

/-- `pokemon::stats::decrease_hp`: saturating subtraction on `hp`. -/
def Stats.decrease_hp (s : Stats) (value : Nat) : Stats :=
  if value > s.hp then { s with hp := 0 } else { s with hp := s.hp - value }

/-- The largest `u64` value; Move `u64` arithmetic aborts past it. -/
def U64_MAX : Nat := 18446744073709551615

/-- `pokemon::pokemon_v1::damage`: the core damage calculation, in the
source's exact evaluation order (each division truncates).  Move `u64`
arithmetic aborts on overflow and on division by zero, so each
potentially aborting operation of the source expression is checked here
in the source's order: every multiplication and the `result` sum against
`U64_MAX`, and the two non-constant divisors (`defence`, `scaling`)
against zero.  The divisions by the constants 5, 50 and 255 and the
`+ 2` on an already-divided quotient cannot abort and carry no check.
On success the returned value is the unbounded evaluation of the
expression, i.e. `damage_val`. -/
def damage (level attack defence move_power random scaling : Nat) :
    Except Err Nat :=
  let lvl_mod := (2 * level * 1 / 5) + 2
  let atk_def := (scaling * attack) / defence
  let result := (lvl_mod * move_power * atk_def / 50) + (2 * scaling)
  let rnd_val := (scaling * random) / 255
  let eff_val := 1
  if ¬ (2 * level * 1 ≤ U64_MAX) then .error .arithmeticOverflow
  else if ¬ (scaling * attack ≤ U64_MAX) then .error .arithmeticOverflow
  else if defence = 0 then .error .divisionByZero
  else if ¬ (lvl_mod * move_power ≤ U64_MAX) then .error .arithmeticOverflow
  else if ¬ (lvl_mod * move_power * atk_def ≤ U64_MAX) then
    .error .arithmeticOverflow
  else if ¬ (2 * scaling ≤ U64_MAX) then .error .arithmeticOverflow
  else if ¬ (result ≤ U64_MAX) then .error .arithmeticOverflow
  else if ¬ (scaling * random ≤ U64_MAX) then .error .arithmeticOverflow
  else if ¬ (result * rnd_val ≤ U64_MAX) then .error .arithmeticOverflow
  else if scaling = 0 then .error .divisionByZero
  else .ok (result * rnd_val * eff_val / scaling)

/-- The unbounded value of the `damage` expression; a successful
(checked) `damage` returns exactly this number, since checked `u64`
arithmetic aborts rather than wraps. -/
def damage_val (level attack defence move_power random scaling : Nat) : Nat :=
  let lvl_mod := (2 * level * 1 / 5) + 2
  let atk_def := (scaling * attack) / defence
  let result := (lvl_mod * move_power * atk_def / 50) + (2 * scaling)
  let rnd_val := (scaling * random) / 255
  let eff_val := 1
  result * rnd_val * eff_val / scaling

/-- `pokemon::pokemon_v1::physical_damage`: asserts the random byte is in
`[217, 255]` and the move power is positive, then calls `damage`. -/
def physical_damage (attacker defender : Stats) (move_power random : Nat) :
    Except Err Nat :=
  if 217 ≤ random ∧ random ≤ 255 then
    if 0 < move_power then
      damage attacker.level attacker.attack defender.defence
        move_power random SCALING_FACTOR
    else .error .eIncorrectMovePower
  else .error .eIncorrectRandomValue

/-- `prototype::battle::STAB_BONUS`. -/
def STAB_BONUS : Nat := 15

/-- `prototype::battle::MOVES_POWER`. -/
def MOVES_POWER : Bytes := [40, 60, 80]

/-- `prototype::battle::MOVES_EFFECTIVENESS`, indexed first by the Move's
type (= its index), then by the defender's type. -/
def MOVES_EFFECTIVENESS : List (List Nat) :=
  [[10, 10, 20], [10, 10, 5], [5, 20, 10]]

/-- `prototype::battle::EFF_SCALING`. -/
def EFF_SCALING : Nat := 10

/-- `prototype::battle::attack` (with `debug = false`): computes the raw
damage via `physical_damage`, applies effectiveness and the same-type
bonus, and decreases the defender's hp.  Returns the updated defender
stats.  The two `u64` multiplications of this layer are checked against
`U64_MAX` like every Move multiplication (the divisions are by the
non-zero constant `EFF_SCALING` and cannot abort). -/
def battle_attack (attacker defender : Stats) (mv rng : Nat) :
    Except Err Stats :=
  if mv < 3 then
    match attacker.types.get? 0, defender.types.get? 0 with
    | some attacker_type, some defender_type =>
      match MOVES_POWER.get? mv with
      | some move_power =>
        match physical_damage attacker defender move_power rng with
        | .error e => .error e
        | .ok raw0 =>
          match MOVES_EFFECTIVENESS.get? mv with
          | some row =>
            match row.get? defender_type with
            | some effectiveness =>
              if ¬ (raw0 * effectiveness ≤ U64_MAX) then
                .error .arithmeticOverflow
              else
                let raw1 := raw0 * effectiveness / EFF_SCALING
                if mv = attacker_type then
                  if ¬ (raw1 * STAB_BONUS ≤ U64_MAX) then
                    .error .arithmeticOverflow
                  else
                    .ok (defender.decrease_hp (raw1 * STAB_BONUS / EFF_SCALING))
                else .ok (defender.decrease_hp raw1)
            | none => .error .indexOutOfBounds
          | none => .error .indexOutOfBounds
      | none => .error .indexOutOfBounds
    | _, _ => .error .indexOutOfBounds
  else .error .eWrongMove

/-- `prototype::arena_pvp::Player`. -/
structure Player where
  starting_hp : Nat
  stats : Stats
  account : Nat
  next_attack : Option Bytes
  next_round : Nat
deriving Repr, DecidableEq

/-- `prototype::arena_pvp::Arena` (the `UID` is irrelevant to the claims
and omitted; the arena is otherwise complete). -/
structure Arena where
  seed : Bytes
  round : Nat
  player_one : Player
  player_two : Option Player
  winner : Option Nat
deriving Repr, DecidableEq

/-- `prototype::arena_pvp::derive`: append the path byte, hash. -/
def derive (hash : Bytes → Bytes) (seed : Bytes) (path : Nat) : Bytes :=
  hash (seed ++ [path])

/-- `prototype::arena_pvp::smooth`. -/
def smooth (value : Nat) : Nat :=
  let v := ((value % 50) + 50) / 2
  if v < 10 then 10 else v

/-- `prototype::arena_pvp::generate_stats`: reads bytes 0..6 of the seed
(aborting when the seed is too short), smooths them into stats. -/
def generate_stats (seed : Bytes) : Except Err Stats :=
  match seed.get? 0, seed.get? 1, seed.get? 2, seed.get? 3,
        seed.get? 4, seed.get? 5, seed.get? 6 with
  | some b0, some b1, some b2, some b3, some b4, some b5, some b6 =>
    Stats.new (10 + smooth b0) (smooth b1) (smooth b2) (smooth b3)
      (smooth b4) (smooth b5) 10 [b6 % 3]
  | _, _, _, _, _, _, _ => .error .indexOutOfBounds

/-- `prototype::arena_pvp::hit_rng`: byte `round` of `derive seed path`,
mapped into `[217, 254]` via `value % (255 - 217) + 217`. -/
def hit_rng (hash : Bytes → Bytes) (seed : Bytes) (path round : Nat) :
    Except Err Nat :=
  match (derive hash seed path).get? round with
  | some value => .ok ((value % (255 - 217)) + 217)
  | none => .error .indexOutOfBounds

/-- `prototype::arena_pvp::new_`: the seed is the hash of the fresh
address bytes (supplied by the host); player one's stats come from
`derive seed 0`. -/
def create (hash : Bytes → Bytes) (addrBytes : Bytes) (sender : Nat) :
    Except Err Arena :=
  let seed := hash addrBytes
  match generate_stats (derive hash seed 0) with
  | .error e => .error e
  | .ok stats =>
    .ok { seed := seed, round := 0,
          player_one := { starting_hp := stats.hp, stats := stats,
                          account := sender, next_attack := none,
                          next_round := 0 },
          player_two := none, winner := none }

/-- `prototype::arena_pvp::join`: rejects the initiator, generates stats,
then `option::fill`s `player_two` - which aborts whenever `player_two`
already holds a value. -/
def join (hash : Bytes → Bytes) (arena : Arena) (sender : Nat) :
    Except Err Arena :=
  if sender = arena.player_one.account then .error .eYouCantTrickMe
  else
    match generate_stats (derive hash arena.seed 1) with
    | .error e => .error e
    | .ok stats =>
      match arena.player_two with
      | some _ => .error .optionAlreadyFilled
      | none =>
        .ok { arena with
              player_two := some { starting_hp := stats.hp, stats := stats,
                                   account := sender, next_attack := none,
                                   next_round := 0 } }

/-- `prototype::arena_pvp::commit`: checks winner unset, player two
present, sender known, no pending commitment; stores the digest. -/
def commit (arena : Arena) (sender : Nat) (commitment : Bytes) :
    Except Err Arena :=
  if arena.winner.isSome then .error .eArenaOver
  else
    match arena.player_two with
    | none => .error .eArenaNotReady
    | some p2 =>
      if sender = arena.player_one.account then
        if arena.player_one.next_attack.isSome then
          .error .eMoveAlreadySubmitted
        else
          .ok { arena with
                player_one := { arena.player_one with
                                next_attack := some commitment } }
      else if sender = p2.account then
        if p2.next_attack.isSome then .error .eMoveAlreadySubmitted
        else
          .ok { arena with
                player_two := some { p2 with next_attack := some commitment } }
      else .error .eUnknownSender

/-- The attacker/defender part of `prototype::arena_pvp::reveal`: checks
the pending commitment, the round, and the hash; performs the attack;
clears the commitment and advances the attacker's `next_round` (a `u8`
increment, which aborts past 255); reports whether the round-bump
condition holds. -/
def revealCore (hash : Bytes → Bytes) (round : Nat) (attacker defender : Player)
    (mv : Nat) (salt : Bytes) : Except Err (Player × Player × Bool) :=
  match attacker.next_attack with
  | none => .error .ePlayerOneNotReady
  | some stored =>
    if attacker.next_round = round then
      let commitment := hash (mv :: salt)
      if commitment = stored then
        match hit_rng hash commitment 2 round with
        | .error e => .error e
        | .ok rng =>
          match battle_attack attacker.stats defender.stats mv rng with
          | .error e => .error e
          | .ok defStats =>
            if round + 1 ≤ 255 then
              let attacker' :=
                { attacker with next_attack := none, next_round := round + 1 }
              let defender' := { defender with stats := defStats }
              let bump := defender'.next_attack.isNone
                && (defender'.next_round == round + 1)
              .ok (attacker', defender', bump)
            else .error .arithmeticOverflow
      else .error .eInvalidCommitment
    else .error .eMoveAlreadySubmitted

/-- `prototype::arena_pvp::reveal`: checks player two present and winner
unset, identifies the sender (player one first), runs `revealCore`, sets
the winner when the defender's hp reached 0, and bumps the round when
this reveal completed the pair. -/
def reveal (hash : Bytes → Bytes) (arena : Arena) (sender : Nat) (mv : Nat)
    (salt : Bytes) : Except Err Arena :=
  match arena.player_two with
  | none => .error .eArenaNotReady
  | some p2 =>
    if arena.winner.isSome then .error .eArenaOver
    else if sender = arena.player_one.account then
      match revealCore hash arena.round arena.player_one p2 mv salt with
      | .error e => .error e
      | .ok (attacker', defender', bump) =>
        .ok { arena with
              player_one := attacker',
              player_two := some defender',
              winner := if defender'.stats.hp = 0 then some attacker'.account
                        else arena.winner,
              round := if bump then arena.round + 1 else arena.round }
    else if sender = p2.account then
      match revealCore hash arena.round p2 arena.player_one mv salt with
      | .error e => .error e
      | .ok (attacker', defender', bump) =>
        .ok { arena with
              player_one := defender',
              player_two := some attacker',
              winner := if defender'.stats.hp = 0 then some attacker'.account
                        else arena.winner,
              round := if bump then arena.round + 1 else arena.round }
    else .error .eUnknownSender

/-- The damage formula as worded in the specification (section 4.3):
`levelMod`, `atkDef`, `base`, `randomFactor`, `raw` in that order with
truncating division, then the effectiveness entry for
`[moveType][defenderType]` over the scaling 10, then the 15/10 same-type
bonus exactly when the move's type equals the attacker's type.  A move's
type is its index; these definitions exist to be compared with the
source-derived `battle_attack` pipeline. -/
def spec_move_power (moveIndex : Nat) : Nat :=
  match moveIndex with
  | 0 => 40
  | 1 => 60
  | _ => 80

/-- The specification's 3x3 effectiveness matrix, keyed by the move's
type then the defender's type (values in tenths). -/
def spec_effectiveness (moveType defenderType : Nat) : Nat :=
  match moveType, defenderType with
  | 0, 0 => 10
  | 0, 1 => 10
  | 0, 2 => 20
  | 1, 0 => 10
  | 1, 1 => 10
  | 1, 2 => 5
  | 2, 0 => 5
  | 2, 1 => 20
  | 2, 2 => 10
  | _, _ => 0

def spec_damage (level attackStat defenceStat attackerType defenderType
    moveIndex randomByte : Nat) : Nat :=
  let movePower := spec_move_power moveIndex
  let moveType := moveIndex
  let levelMod := (2 * level * 1 / 5) + 2
  let atkDef := (SCALING_FACTOR * attackStat) / defenceStat
  let base := (levelMod * movePower * atkDef / 50) + 2 * SCALING_FACTOR
  let randomFactor := (SCALING_FACTOR * randomByte) / 255
  let raw := base * randomFactor / SCALING_FACTOR
  let raw1 := raw * spec_effectiveness moveType defenderType / 10
  if moveType = attackerType then raw1 * 15 / 10 else raw1

/-- The player that `reveal` would treat as the attacker for a given
sender, mirroring the source's order of checks (player one first). -/
def senderAttacker (a : Arena) (s : Nat) : Option Player :=
  if s = a.player_one.account then some a.player_one
  else
    match a.player_two with
    | some p2 => if s = p2.account then some p2 else none
    | none => none

/-- The player that `reveal` would treat as the defender for a given
sender (the opposite slot to `senderAttacker`). -/
def defenderOf (a : Arena) (s : Nat) : Option Player :=
  if s = a.player_one.account then a.player_two else some a.player_one

/-- Arena states reachable through successful `create` / `join` /
`commit` / `reveal` operations. -/
inductive Reachable (hash : Bytes → Bytes) : Arena → Prop where
  | created (addrBytes : Bytes) (sender : Nat) (a : Arena)
      (h : create hash addrBytes sender = .ok a) : Reachable hash a
  | joined (a : Arena) (s : Nat) (a' : Arena) (hr : Reachable hash a)
      (h : join hash a s = .ok a') : Reachable hash a'
  | committed (a : Arena) (s : Nat) (c : Bytes) (a' : Arena)
      (hr : Reachable hash a) (h : commit a s c = .ok a') : Reachable hash a'
  | revealed (a : Arena) (s mv : Nat) (salt : Bytes) (a' : Arena)
      (hr : Reachable hash a) (h : reveal hash a s mv salt = .ok a') :
      Reachable hash a'

/-- The inductive invariant of reachable arenas: a winner implies a
second player, a missing second player pins the round bookkeeping at 0,
and each present player's `next_round` is the arena round or its
successor. -/
def ArenaInv (a : Arena) : Prop :=
  (a.winner.isSome → a.player_two.isSome) ∧
  (a.player_two = none → a.round = 0 ∧ a.player_one.next_round = 0) ∧
  (a.player_one.next_round = a.round ∨
    a.player_one.next_round = a.round + 1) ∧
  (∀ p2, a.player_two = some p2 →
    p2.next_round = a.round ∨ p2.next_round = a.round + 1)

/-- A simple concrete hash used to evaluate the development on closed
inputs: 32 bytes, each the byte sum of the input modulo 256. -/
def testHash (bytes : Bytes) : Bytes :=
  List.replicate 32 (bytes.foldl (fun acc b => acc + b) 0 % 256)

/-- A concrete hash, given by a finite table, under which a full game
(create, join, commit, reveal that zeroes the defender's hp) can be
played out on closed inputs. -/
def hashW (bytes : Bytes) : Bytes :=
  if bytes = [0] then [1, 2, 3, 4, 5, 6, 7]
  else if bytes = [1, 2, 3, 4, 5, 6, 7, 0] then [0, 49, 0, 0, 0, 0, 2]
  else if bytes = [1, 2, 3, 4, 5, 6, 7, 1] then [0, 0, 0, 0, 0, 0, 1]
  else if bytes = [2, 7] then [99]
  else if bytes = [99, 2] then [37]
  else [0]

/-- A default arena, used only to coerce closed `Except` values. -/
def arenaDefault : Arena :=
  { seed := [], round := 0,
    player_one := { starting_hp := 0,
                    stats := { hp := 0, attack := 0, defence := 0,
                               special_attack := 0, special_defence := 0,
                               speed := 0, level := 0, types := [] },
                    account := 0, next_attack := none, next_round := 0 },
    player_two := none, winner := none }

/-- Extract the success value of a closed operation. -/
def okOr (x : Except Err Arena) (d : Arena) : Arena :=
  match x with
  | .ok a => a
  | .error _ => d

/-- Concrete game, step 0: account 1 creates the arena. -/
def arenaW0 : Arena := okOr (create hashW [0] 1) arenaDefault

/-- Concrete game, step 1: account 2 joins. -/
def arenaW1 : Arena := okOr (join hashW arenaW0 2) arenaDefault

/-- Concrete game, step 2: player one commits to move 2 with salt `[7]`. -/
def arenaW2 : Arena := okOr (commit arenaW1 1 [99]) arenaDefault

/-- Concrete game, step 3: player one reveals; the hit zeroes player
two's hp, so the winner is set. -/
def arenaW3 : Arena := okOr (reveal hashW arenaW2 1 2 [7]) arenaDefault

/-- The observable effect of a successful `reveal` by sender `s` taking
arena `a` to `a'`: some attacker/defender pair drawn from the two player
slots (player one first, mirroring the sender dispatch) such that the
attacker revealed for the current round, cleared its commitment and
stepped `next_round`, the defender kept its bookkeeping fields and lost
hp, the round advanced exactly when the defender had no pending
commitment and had already revealed for this round, and the winner was
set exactly when the defender's hp reached zero. -/
def RevealShape (a : Arena) (s : Nat) (a' : Arena) : Prop :=
  ∃ att deff att' deff',
    att.next_round = a.round ∧
    att' = { att with next_attack := none, next_round := a.round + 1 } ∧
    deff'.next_attack = deff.next_attack ∧
    deff'.next_round = deff.next_round ∧
    deff'.account = deff.account ∧
    deff'.stats.hp ≤ deff.stats.hp ∧
    a'.seed = a.seed ∧
    a'.round = (if deff.next_attack = none ∧ deff.next_round = a.round + 1
                then a.round + 1 else a.round) ∧
    a'.winner = (if deff'.stats.hp = 0 then some att.account else none) ∧
    ((s = a.player_one.account ∧ att = a.player_one ∧
      a.player_two = some deff ∧
      a'.player_one = att' ∧ a'.player_two = some deff') ∨
     (¬ s = a.player_one.account ∧ a.player_two = some att ∧
      s = att.account ∧ deff = a.player_one ∧
      a'.player_two = some att' ∧ a'.player_one = deff'))

/-- Extract the success value of a closed stat computation. -/
def okStats (x : Except Err Stats) (d : Stats) : Stats :=
  match x with
  | .ok st => st
  | .error _ => d

/-- A concrete attacker stat block for closed evaluations. -/
def statsA : Stats :=
  { hp := 1000000000, attack := 30, defence := 20, special_attack := 25,
    special_defence := 25, speed := 25, level := 10, types := [0] }

/-- A concrete defender stat block for closed evaluations. -/
def statsD : Stats :=
  { hp := 500, attack := 22, defence := 13, special_attack := 25,
    special_defence := 25, speed := 25, level := 10, types := [1] }

/-- The concrete stats generated from the seed `[1,2,3,4,5,6,8]`. -/
def statsW9 : Stats := okStats (generate_stats [1, 2, 3, 4, 5, 6, 8]) statsA

/-- The concrete defender stats after a successful attack with move 0
and random byte 230. -/
def statsC5 : Stats := okStats (battle_attack statsA statsD 0 230) statsA

/-- `smooth` never takes its fallback branch: the intermediate value is
already in `[25, 49]`. -/
theorem smooth_spec (v : Nat) :
    smooth v = ((v % 50) + 50) / 2 ∧ 25 ≤ smooth v ∧ smooth v ≤ 49 := by
  simp only [smooth]
  split <;> omega

/-- `generate_stats` on a seed of at least 7 bytes, in closed form. -/
theorem generate_stats_fields (b0 b1 b2 b3 b4 b5 b6 : Nat) (rest : Bytes) :
    generate_stats (b0 :: b1 :: b2 :: b3 :: b4 :: b5 :: b6 :: rest) =
      .ok { hp := (10 + smooth b0) * SCALING_FACTOR, attack := smooth b1,
            defence := smooth b2, special_attack := smooth b3,
            special_defence := smooth b4, speed := smooth b5,
            level := 10, types := [b6 % 3] } := by
  simp [generate_stats, Stats.new]

/-- A list of length at least 7 starts with 7 explicit elements. -/
theorem list_seven (l : Bytes) (h : 7 ≤ l.length) :
    ∃ b0 b1 b2 b3 b4 b5 b6 rest,
      l = b0 :: b1 :: b2 :: b3 :: b4 :: b5 :: b6 :: rest := by
  match l, h with
  | b0 :: b1 :: b2 :: b3 :: b4 :: b5 :: b6 :: rest, _ =>
    exact ⟨b0, b1, b2, b3, b4, b5, b6, rest, rfl⟩

/-- `decrease_hp` is saturating subtraction on the hp field. -/
theorem decrease_hp_eq (s : Stats) (v : Nat) :
    s.decrease_hp v = { s with hp := s.hp - v } := by
  unfold Stats.decrease_hp
  split
  · have h0 : s.hp - v = 0 := by omega
    rw [h0]
  · rfl

set_option maxHeartbeats 1000000 in
/-- A successful (checked) `damage` returns the unbounded value of the
source expression. -/
theorem damage_ok_value {level attack defence move_power random scaling
    v : Nat}
    (h : damage level attack defence move_power random scaling = .ok v) :
    v = damage_val level attack defence move_power random scaling := by
  unfold damage at h
  dsimp only at h
  split_ifs at h
  exact (Except.ok.inj h).symm

set_option maxHeartbeats 1000000 in
/-- `damage` never fails with the random-byte precondition error: its
only aborts are arithmetic. -/
theorem damage_ne_rand (level attack defence move_power random scaling
    : Nat) :
    damage level attack defence move_power random scaling
      ≠ .error .eIncorrectRandomValue := by
  unfold damage
  dsimp only
  split_ifs <;> simp

/-- Inversion for a successful `physical_damage`: the guards passed and
the value is the unbounded damage expression. -/
theorem physical_damage_ok {atk dfd : Stats} {mp r v : Nat}
    (h : physical_damage atk dfd mp r = .ok v) :
    (217 ≤ r ∧ r ≤ 255) ∧ 0 < mp ∧
    v = damage_val atk.level atk.attack dfd.defence mp r SCALING_FACTOR := by
  unfold physical_damage at h
  split at h
  · rename_i hcond
    split at h
    · rename_i hmp
      exact ⟨hcond, hmp, damage_ok_value h⟩
    · exact absurd h (by simp)
  · exact absurd h (by simp)

/-- Inversion for a successful `battle_attack`: the result is the
defender with some damage applied. -/
theorem battle_attack_ok {atk dfd : Stats} {mv rng : Nat} {st' : Stats}
    (h : battle_attack atk dfd mv rng = .ok st') :
    ∃ dmg, st' = dfd.decrease_hp dmg := by
  unfold battle_attack at h
  repeat' first
    | split at h
    | dsimp only at h
  all_goals first
    | exact ⟨_, (Except.ok.inj h).symm⟩
    | exact absurd h (by simp)

/-- Inversion for a successful `battle_attack` with known single types:
the subtracted amount is the unbounded damage expression scaled by the
table lookups, with the same-type bonus exactly when the move index
equals the attacker's type. -/
theorem battle_attack_ok_value {atk dfd : Stats} {mv rng at0 dt0 : Nat}
    {arest drest : Bytes} {st' : Stats}
    (hat : atk.types = at0 :: arest) (hdt : dfd.types = dt0 :: drest)
    (h : battle_attack atk dfd mv rng = .ok st') :
    ∃ mp row eff,
      MOVES_POWER.get? mv = some mp ∧
      MOVES_EFFECTIVENESS.get? mv = some row ∧
      row.get? dt0 = some eff ∧
      st' = dfd.decrease_hp
        (if mv = at0 then
          damage_val atk.level atk.attack dfd.defence mp rng SCALING_FACTOR
            * eff / EFF_SCALING * STAB_BONUS / EFF_SCALING
         else
          damage_val atk.level atk.attack dfd.defence mp rng SCALING_FACTOR
            * eff / EFF_SCALING) := by
  unfold battle_attack at h
  rw [hat, hdt] at h
  simp only [List.get?] at h
  split at h
  · split at h
    · rename_i mp hmp
      split at h
      · exact absurd h (by simp)
      · rename_i raw0 hpd
        split at h
        · rename_i row hrow
          split at h
          · rename_i eff heff
            split at h
            · exact absurd h (by simp)
            · obtain ⟨hr, hmp0, hval⟩ := physical_damage_ok hpd
              split at h
              · rename_i hstab
                split at h
                · exact absurd h (by simp)
                · refine ⟨mp, row, eff, hmp, hrow, heff, ?_⟩
                  rw [if_pos hstab, ← hval]
                  exact (Except.ok.inj h).symm
              · rename_i hstab
                refine ⟨mp, row, eff, hmp, hrow, heff, ?_⟩
                rw [if_neg hstab, ← hval]
                exact (Except.ok.inj h).symm
          · exact absurd h (by simp)
        · exact absurd h (by simp)
    · exact absurd h (by simp)
  · exact absurd h (by simp)

/-- Inversion for a successful `create`. -/
theorem create_ok {hash : Bytes → Bytes} {ab : Bytes} {s : Nat} {a' : Arena}
    (h : create hash ab s = .ok a') :
    a'.round = 0 ∧ a'.player_one.next_round = 0 ∧
    a'.player_one.next_attack = none ∧ a'.player_two = none ∧
    a'.winner = none := by
  unfold create at h
  dsimp only at h
  split at h
  · exact absurd h (by simp)
  · rw [← Except.ok.inj h]
    exact ⟨rfl, rfl, rfl, rfl, rfl⟩

/-- Inversion for a successful `join`. -/
theorem join_ok {hash : Bytes → Bytes} {a : Arena} {s : Nat} {a' : Arena}
    (h : join hash a s = .ok a') :
    s ≠ a.player_one.account ∧ a.player_two = none ∧
    a'.round = a.round ∧ a'.winner = a.winner ∧ a'.seed = a.seed ∧
    a'.player_one = a.player_one ∧
    ∃ p2, a'.player_two = some p2 ∧ p2.account = s ∧
      p2.next_attack = none ∧ p2.next_round = 0 := by
  unfold join at h
  split at h
  · exact absurd h (by simp)
  · split at h
    · exact absurd h (by simp)
    · split at h
      · exact absurd h (by simp)
      · rw [← Except.ok.inj h]
        refine ⟨by assumption, by assumption, rfl, rfl, rfl, rfl,
          _, rfl, rfl, rfl, rfl⟩

/-- Inversion for a successful `commit`. -/
theorem commit_ok {a : Arena} {s : Nat} {c : Bytes} {a' : Arena}
    (h : commit a s c = .ok a') :
    a.winner = none ∧ a'.winner = none ∧
    a.player_two.isSome ∧ a'.player_two.isSome ∧
    a'.round = a.round ∧ a'.seed = a.seed ∧
    a'.player_one.account = a.player_one.account ∧
    a'.player_one.next_round = a.player_one.next_round ∧
    a'.player_one.stats = a.player_one.stats ∧
    Option.map (fun p => p.next_round) a'.player_two
      = Option.map (fun p => p.next_round) a.player_two ∧
    Option.map (fun p => p.stats) a'.player_two
      = Option.map (fun p => p.stats) a.player_two ∧
    Option.map (fun p => p.account) a'.player_two
      = Option.map (fun p => p.account) a.player_two := by
  unfold commit at h
  split at h
  · exact absurd h (by simp)
  · rename_i hwin
    split at h
    · exact absurd h (by simp)
    · rename_i p2 hp2
      rw [Option.not_isSome_iff_eq_none] at hwin
      split at h
      · split at h
        · exact absurd h (by simp)
        · rw [← Except.ok.inj h]
          exact ⟨hwin, hwin, by simp [hp2], by simp [hp2], rfl, rfl, rfl,
            rfl, rfl, by simp [hp2], by simp [hp2], by simp [hp2]⟩
      · split at h
        · split at h
          · exact absurd h (by simp)
          · rw [← Except.ok.inj h]
            exact ⟨hwin, hwin, by simp [hp2], by simp, rfl, rfl, rfl,
              rfl, rfl, by simp [hp2], by simp [hp2], by simp [hp2]⟩
        · exact absurd h (by simp)

/-- Inversion for a successful `revealCore`. -/
theorem revealCore_ok {hash : Bytes → Bytes} {round : Nat}
    {att deff : Player} {mv : Nat} {salt : Bytes} {att' deff' : Player}
    {bump : Bool}
    (h : revealCore hash round att deff mv salt = .ok (att', deff', bump)) :
    att.next_round = round ∧
    att.next_attack = some (hash (mv :: salt)) ∧
    att' = { att with next_attack := none, next_round := round + 1 } ∧
    (∃ rng st', hit_rng hash (hash (mv :: salt)) 2 round = .ok rng ∧
      battle_attack att.stats deff.stats mv rng = .ok st' ∧
      deff' = { deff with stats := st' }) ∧
    bump = (deff.next_attack.isNone && (deff.next_round == round + 1)) ∧
    round + 1 ≤ 255 := by
  unfold revealCore at h
  split at h
  · exact absurd h (by simp)
  · rename_i stored hstored
    split at h
    · rename_i hround
      dsimp only at h
      split at h
      · rename_i hcomm
        split at h
        · exact absurd h (by simp)
        · rename_i rng hrng
          split at h
          · exact absurd h (by simp)
          · rename_i st' hst
            split at h
            · rename_i hovf
              have hinj := Except.ok.inj h
              have h1 : att' = { att with next_attack := none, next_round := round + 1 } := (congrArg Prod.fst hinj).symm
              have h2 : deff' = { deff with stats := st' } := (congrArg (fun t => t.2.1) hinj).symm
              have h3 : bump = ((deff.next_attack.isNone) && (deff.next_round == round + 1)) := (congrArg (fun t => t.2.2) hinj).symm
              refine ⟨hround, ?_, h1, ⟨rng, st', ?_, hst, h2⟩, h3, hovf⟩
              · rw [hstored, hcomm]
              · exact hrng
            · exact absurd h (by simp)
      · exact absurd h (by simp)
    · exact absurd h (by simp)

/-- The round-bump condition as a boolean equals its propositional form. -/
theorem bool_if_round (o : Option Bytes) (n r x y : Nat) :
    (if (o.isNone && (n == r)) = true then x else y) =
    (if o = none ∧ n = r then x else y) := by
  by_cases h1 : o = none <;> by_cases h2 : n = r <;> simp [h1, h2]

/-- A successful `reveal` implies the winner was unset, the round was
below the `u8` bound, and the transition has the `RevealShape` form. -/
theorem reveal_ok_shape {hash : Bytes → Bytes} {a : Arena} {s mv : Nat}
    {salt : Bytes} {a' : Arena}
    (h : reveal hash a s mv salt = .ok a') :
    a.winner = none ∧ a.round + 1 ≤ 255 ∧ RevealShape a s a' := by
  unfold reveal at h
  split at h
  · exact absurd h (by simp)
  · rename_i p2 hp2
    split at h
    · exact absurd h (by simp)
    · rename_i hwin
      have hwn : a.winner = none := Option.not_isSome_iff_eq_none.mp hwin
      split at h
      · rename_i hs1
        split at h
        · exact absurd h (by simp)
        · rename_i att1 deff1 bump1 hcore
          obtain ⟨hround, hcommit, hatteq,
            ⟨rng, st', hrng, hst, hdeffeq⟩, hbump, hovf⟩ := revealCore_ok hcore
          have hinj := (Except.ok.inj h).symm
          obtain ⟨dmg, hdmg⟩ := battle_attack_ok hst
          refine ⟨hwn, hovf, a.player_one, p2, att1, deff1, hround, hatteq,
            ?_, ?_, ?_, ?_, ?_, ?_, ?_, Or.inl ⟨hs1, rfl, hp2, ?_, ?_⟩⟩
          · rw [hdeffeq]
          · rw [hdeffeq]
          · rw [hdeffeq]
          · rw [hdeffeq, hdmg, decrease_hp_eq]
            exact Nat.sub_le _ _
          · rw [hinj]
          · simp only [hinj, hbump]
            exact bool_if_round _ _ _ _ _
          · rw [hinj, hatteq, hwn]
          · rw [hinj]
          · rw [hinj]
      · rename_i hns1
        split at h
        · rename_i hs2
          split at h
          · exact absurd h (by simp)
          · rename_i att1 deff1 bump1 hcore
            obtain ⟨hround, hcommit, hatteq,
              ⟨rng, st', hrng, hst, hdeffeq⟩, hbump, hovf⟩ := revealCore_ok hcore
            have hinj := (Except.ok.inj h).symm
            obtain ⟨dmg, hdmg⟩ := battle_attack_ok hst
            refine ⟨hwn, hovf, p2, a.player_one, att1, deff1, hround, hatteq,
              ?_, ?_, ?_, ?_, ?_, ?_, ?_, Or.inr ⟨hns1, hp2, hs2, rfl, ?_, ?_⟩⟩
            · rw [hdeffeq]
            · rw [hdeffeq]
            · rw [hdeffeq]
            · rw [hdeffeq, hdmg, decrease_hp_eq]
              exact Nat.sub_le _ _
            · rw [hinj]
            · simp only [hinj, hbump]
              exact bool_if_round _ _ _ _ _
            · rw [hinj, hatteq, hwn]
            · rw [hinj]
            · rw [hinj]
        · exact absurd h (by simp)

/-- Every reachable arena satisfies the inductive invariant. -/
theorem reachable_inv {hash : Bytes → Bytes} {a : Arena}
    (h : Reachable hash a) : ArenaInv a := by
  induction h with
  | created ab s a hc =>
    obtain ⟨h1, h2, h3, h4, h5⟩ := create_ok hc
    refine ⟨?_, ?_, ?_, ?_⟩
    · intro hw
      rw [h5] at hw
      simp at hw
    · intro _
      exact ⟨h1, h2⟩
    · left
      rw [h1, h2]
    · intro q hq
      rw [h4] at hq
      simp at hq
  | joined a s a' hr hj ih =>
    obtain ⟨hne, hnone, hrd, hwn, hsd, hp1, p2, hp2, hacc, hna, hnr⟩ := join_ok hj
    obtain ⟨ih1, ih2, ih3, ih4⟩ := ih
    obtain ⟨hr0, hnr0⟩ := ih2 hnone
    refine ⟨?_, ?_, ?_, ?_⟩
    · intro _
      rw [hp2]
      simp
    · intro hcontra
      rw [hcontra] at hp2
      simp at hp2
    · left
      rw [hp1, hrd, hr0, hnr0]
    · intro q hq
      rw [hp2] at hq
      obtain rfl := Option.some.inj hq
      left
      rw [hnr, hrd, hr0]
  | committed a s c a' hr hcm ih =>
    obtain ⟨hwn, hwn', hps, hps', hrd, hsd, hacc, hnrp1, hstp1,
      hmapnr, hmapst, hmapacc⟩ := commit_ok hcm
    obtain ⟨ih1, ih2, ih3, ih4⟩ := ih
    refine ⟨?_, ?_, ?_, ?_⟩
    · intro _
      exact hps'
    · intro hcontra
      rw [hcontra] at hps'
      simp at hps'
    · rw [hnrp1, hrd]
      exact ih3
    · intro q hq
      have h1 : Option.map (fun p => p.next_round) a.player_two
          = some q.next_round := by
        rw [← hmapnr, hq]
        rfl
      rw [Option.map_eq_some'] at h1
      obtain ⟨p, hp, hpnr⟩ := h1
      have hir := ih4 p hp
      rw [hrd]
      omega
  | revealed a s mv salt a' hr hrv ih =>
    obtain ⟨hwn, hovf, att, deff, att', deff', hanr, hatteq, hd1, hd2, hd3,
      hdhp, hsd, hrd, hw, hbr⟩ := reveal_ok_shape hrv
    obtain ⟨ih1, ih2, ih3, ih4⟩ := ih
    have hattnr : att'.next_round = a.round + 1 := by rw [hatteq]
    rcases hbr with ⟨hs1, hattp, hdeffp, hp1', hp2'⟩ |
      ⟨hns1, hattp, hsacc, hdeffp, hp2', hp1'⟩
    · have hdeffnr := ih4 deff hdeffp
      refine ⟨?_, ?_, ?_, ?_⟩
      · intro _
        rw [hp2']
        simp
      · intro hcontra
        rw [hcontra] at hp2'
        simp at hp2'
      · rw [hp1', hattnr, hrd]
        by_cases hc : deff.next_attack = none ∧ deff.next_round = a.round + 1
        · rw [if_pos hc]
          left
          rfl
        · rw [if_neg hc]
          right
          rfl
      · intro q hq
        rw [hp2'] at hq
        obtain rfl := Option.some.inj hq
        rw [hd2, hrd]
        by_cases hc : deff.next_attack = none ∧ deff.next_round = a.round + 1
        · rw [if_pos hc]
          omega
        · rw [if_neg hc]
          omega
    · have hdeffnr : deff.next_round = a.round ∨ deff.next_round = a.round + 1 := by
        rw [hdeffp]
        exact ih3
      refine ⟨?_, ?_, ?_, ?_⟩
      · intro _
        rw [hp2']
        simp
      · intro hcontra
        rw [hcontra] at hp2'
        simp at hp2'
      · rw [hp1', hd2, hrd]
        by_cases hc : deff.next_attack = none ∧ deff.next_round = a.round + 1
        · rw [if_pos hc]
          omega
        · rw [if_neg hc]
          omega
      · intro q hq
        rw [hp2'] at hq
        obtain rfl := Option.some.inj hq
        rw [hattnr, hrd]
        by_cases hc : deff.next_attack = none ∧ deff.next_round = a.round + 1
        · rw [if_pos hc]
          omega
        · rw [if_neg hc]
          omega

/-- C1: for every arena and every successful reveal, `arena.round`
increases by exactly 1 if and only if, at the end of that reveal, the
defender has no pending commitment and the defender's `next_round`
equals the pre-reveal `arena.round + 1` (the reveal completed the pair);
otherwise - in particular after a reveal by only one player of a round -
the round counter is unchanged.  Proved for all arenas, hence in
particular for all reachable ones. -/
theorem c1_round_advances_iff_pair_complete {hash : Bytes → Bytes}
    {a : Arena} {s mv : Nat} {salt : Bytes} {a' : Arena}
    (h : reveal hash a s mv salt = .ok a') :
    ∃ d', defenderOf a' s = some d' ∧
      (a'.round = a.round + 1 ↔
        (d'.next_attack = none ∧ d'.next_round = a.round + 1)) ∧
      (a'.round = a.round + 1 ∨ a'.round = a.round) := by
  obtain ⟨hwn, hovf, att, deff, att', deff', hanr, hatteq, hd1, hd2, hd3,
    hdhp, hsd, hrd, hw, hbr⟩ := reveal_ok_shape h
  rcases hbr with ⟨hs1, hattp, hdeffp, hp1', hp2'⟩ |
    ⟨hns1, hattp, hsacc, hdeffp, hp2', hp1'⟩
  · refine ⟨deff', ?_, ?_, ?_⟩
    · simp [defenderOf, hp1', hp2', hatteq, hattp, hs1]
    · rw [hrd, hd1, hd2]
      by_cases hc : deff.next_attack = none ∧ deff.next_round = a.round + 1
      · rw [if_pos hc]
        simp [hc]
      · rw [if_neg hc]
        constructor
        · intro hcon
          omega
        · intro hcon
          exact absurd hcon hc
    · rw [hrd]
      by_cases hc : deff.next_attack = none ∧ deff.next_round = a.round + 1
      · rw [if_pos hc]
        left
        rfl
      · rw [if_neg hc]
        right
        rfl
  · refine ⟨deff', ?_, ?_, ?_⟩
    · have hacc : a'.player_one.account = a.player_one.account := by
        rw [hp1', hd3, hdeffp]
      have hcond : ¬ s = a'.player_one.account := by
        rw [hacc]
        exact hns1
      unfold defenderOf
      rw [if_neg hcond, hp1']
    · rw [hrd, hd1, hd2]
      by_cases hc : deff.next_attack = none ∧ deff.next_round = a.round + 1
      · rw [if_pos hc]
        simp [hc]
      · rw [if_neg hc]
        constructor
        · intro hcon
          omega
        · intro hcon
          exact absurd hcon hc
    · rw [hrd]
      by_cases hc : deff.next_attack = none ∧ deff.next_round = a.round + 1
      · rw [if_pos hc]
        left
        rfl
      · rw [if_neg hc]
        right
        rfl

/-- Once `player_two` is set, every `join` fails: the initiator is
rejected up front, and any other sender reaches the `option::fill` on
the already-filled slot (or an earlier abort of stat generation). -/
theorem join_full_fails {hash : Bytes → Bytes} {a : Arena} {s : Nat}
    (hp : a.player_two.isSome) : ∃ e, join hash a s = .error e := by
  unfold join
  by_cases hs : s = a.player_one.account
  · rw [if_pos hs]
    exact ⟨_, rfl⟩
  · rw [if_neg hs]
    cases hg : generate_stats (derive hash a.seed 1) with
    | error e => exact ⟨e, rfl⟩
    | ok st =>
      cases hp2 : a.player_two with
      | none =>
        rw [hp2] at hp
        simp at hp
      | some p => exact ⟨.optionAlreadyFilled, rfl⟩

/-- When `player_two` is set, the sender is not the initiator, and the
hash yields enough bytes for stat generation, `join` aborts exactly at
the `option::fill`. -/
theorem join_full_abort {hash : Bytes → Bytes} {a : Arena} {s : Nat}
    (hp : a.player_two.isSome) (hs : ¬ s = a.player_one.account)
    (hlen : 7 ≤ (hash (a.seed ++ [1])).length) :
    join hash a s = .error .optionAlreadyFilled := by
  obtain ⟨b0, b1, b2, b3, b4, b5, b6, rest, hseed⟩ := list_seven _ hlen
  obtain ⟨p2, hp2⟩ := Option.isSome_iff_exists.mp hp
  unfold join
  rw [if_neg hs]
  unfold derive
  rw [hseed, generate_stats_fields, hp2]

/-- C2 counterexample: in a concrete arena whose `player_two` slot holds
the identity 2, a rejoin by that same identity 2 is not a no-op - it
aborts at the `option::fill` on the already-filled slot, refuting the
claimed idempotent rejoin. -/
theorem c2_counterexample :
    arenaW1.player_two.map (fun p => p.account) = some 2 ∧
    join hashW arenaW1 2 = .error .optionAlreadyFilled := by
  constructor
  · rfl
  · rfl

/-- C2 amended: for every arena whose `player_two` is already set, every
`join` call - by the stored player two or by any third identity - fails
(so the arena state is unchanged); when the sender is not player one and
the hash supplies at least 7 bytes for stat generation, the failure is
precisely the option-already-filled abort of `option::fill`.  There is
no idempotent-rejoin no-op and no distinct "arena full" precondition
error. -/
theorem c2_join_when_full_fails {hash : Bytes → Bytes} {a : Arena} {s : Nat}
    (hp : a.player_two.isSome) :
    (∃ e, join hash a s = .error e) ∧
    (¬ s = a.player_one.account → 7 ≤ (hash (a.seed ++ [1])).length →
      join hash a s = .error .optionAlreadyFilled) := by
  constructor
  · exact join_full_fails hp
  · intro hs hlen
    exact join_full_abort hp hs hlen

/-- C2 witness: the amended theorem applied to the concrete joined arena
and the third identity 3. -/
theorem c2_join_when_full_fails_witness :
    (∃ e, join hashW arenaW1 3 = .error e) ∧
    (¬ (3 : Nat) = arenaW1.player_one.account →
      7 ≤ (hashW (arenaW1.seed ++ [1])).length →
      join hashW arenaW1 3 = .error .optionAlreadyFilled) :=
  c2_join_when_full_fails (by decide)

/-- `revealCore` with a stored commitment the revealed move/salt does
not hash to: always an error, and exactly `EInvalidCommitment` when the
round check passes. -/
theorem revealCore_bad_commitment {hash : Bytes → Bytes} {round : Nat}
    {att deff : Player} {mv : Nat} {salt : Bytes} {c : Bytes}
    (hc : att.next_attack = some c) (hne : hash (mv :: salt) ≠ c) :
    (∃ e, revealCore hash round att deff mv salt = .error e) ∧
    (att.next_round = round →
      revealCore hash round att deff mv salt = .error .eInvalidCommitment) := by
  unfold revealCore
  simp only [hc]
  by_cases hr : att.next_round = round
  · rw [if_pos hr]
    rw [if_neg hne]
    exact ⟨⟨_, rfl⟩, fun _ => rfl⟩
  · rw [if_neg hr]
    exact ⟨⟨_, rfl⟩, fun hco => absurd hco hr⟩

/-- C3: whenever the hash of the one-byte move followed by the salt does
not equal the sender's stored commitment, `reveal` fails - so the whole
arena state is unchanged, the operation producing no successor state -
and when the guards ahead of the hash check pass (player two present,
no winner, the sender's `next_round` equal to the arena round) the error
is precisely the invalid-commitment abort. -/
theorem c3_bad_commitment_reveal_fails {hash : Bytes → Bytes} {a : Arena}
    {s mv : Nat} {salt : Bytes} {att : Player} {c : Bytes}
    (hatt : senderAttacker a s = some att)
    (hc : att.next_attack = some c)
    (hne : hash (mv :: salt) ≠ c) :
    (∃ e, reveal hash a s mv salt = .error e) ∧
    (a.player_two.isSome → a.winner = none → att.next_round = a.round →
      reveal hash a s mv salt = .error .eInvalidCommitment) := by
  unfold reveal
  cases hp2m : a.player_two with
  | none =>
    constructor
    · exact ⟨_, rfl⟩
    · intro hps
      simp at hps
  | some p2 =>
    dsimp only
    by_cases hwin : a.winner.isSome
    · rw [if_pos hwin]
      constructor
      · exact ⟨_, rfl⟩
      · intro _ hwn
        rw [hwn] at hwin
        simp at hwin
    · rw [if_neg hwin]
      by_cases hs1 : s = a.player_one.account
      · rw [if_pos hs1]
        have hattp : att = a.player_one := by
          unfold senderAttacker at hatt
          rw [if_pos hs1] at hatt
          exact (Option.some.inj hatt).symm
        subst hattp
        obtain ⟨⟨e, he⟩, hinv⟩ :=
          @revealCore_bad_commitment hash a.round a.player_one p2 mv salt c hc hne
        constructor
        · exact ⟨e, by rw [he]⟩
        · intro _ _ hnr
          rw [hinv hnr]
      · rw [if_neg hs1]
        by_cases hs2 : s = p2.account
        · rw [if_pos hs2]
          have hattp : att = p2 := by
            unfold senderAttacker at hatt
            rw [if_neg hs1, hp2m] at hatt
            dsimp only at hatt
            rw [if_pos hs2] at hatt
            exact (Option.some.inj hatt).symm
          subst hattp
          obtain ⟨⟨e, he⟩, hinv⟩ :=
            @revealCore_bad_commitment hash a.round att a.player_one mv salt c hc hne
          constructor
          · exact ⟨e, by rw [he]⟩
          · intro _ _ hnr
            rw [hinv hnr]
        · exfalso
          unfold senderAttacker at hatt
          rw [if_neg hs1, hp2m] at hatt
          dsimp only at hatt
          rw [if_neg hs2] at hatt
          simp at hatt

/-- C1 witness: the round-advance characterisation applied to the
concrete successful reveal taking `arenaW2` to `arenaW3`. -/
theorem c1_round_advances_iff_pair_complete_witness :
    ∃ d', defenderOf arenaW3 1 = some d' ∧
      (arenaW3.round = arenaW2.round + 1 ↔
        (d'.next_attack = none ∧ d'.next_round = arenaW2.round + 1)) ∧
      (arenaW3.round = arenaW2.round + 1 ∨ arenaW3.round = arenaW2.round) :=
  @c1_round_advances_iff_pair_complete hashW arenaW2 1 2 [7] arenaW3 (by rfl)

/-- C3 witness: the bad-commitment theorem applied to a concrete reveal
of move 2 with the wrong salt `[8]` against the stored commitment. -/
theorem c3_bad_commitment_reveal_fails_witness :
    (∃ e, reveal hashW arenaW2 1 2 [8] = .error e) ∧
    (arenaW2.player_two.isSome → arenaW2.winner = none →
      arenaW2.player_one.next_round = arenaW2.round →
      reveal hashW arenaW2 1 2 [8] = .error .eInvalidCommitment) :=
  @c3_bad_commitment_reveal_fails hashW arenaW2 1 2 [8]
    arenaW2.player_one [99] (by rfl) (by rfl) (by decide)

/-- C4: in every reachable arena in which the winner is set, every
subsequent `commit` and `reveal` fails with the arena-over precondition
error, and every `join` fails too; since every mutating operation fails,
the winner (and the rest of the state) is never modified again. -/
theorem c4_winner_final {hash : Bytes → Bytes} {a : Arena} {w : Nat}
    (hr : Reachable hash a) (hw : a.winner = some w) :
    (∀ s c, commit a s c = .error .eArenaOver) ∧
    (∀ s mv salt, reveal hash a s mv salt = .error .eArenaOver) ∧
    (∀ s, ∃ e, join hash a s = .error e) := by
  have hinv := reachable_inv hr
  have hps : a.player_two.isSome := hinv.1 (by rw [hw]; rfl)
  obtain ⟨p2, hp2⟩ := Option.isSome_iff_exists.mp hps
  refine ⟨?_, ?_, ?_⟩
  · intro s c
    unfold commit
    rw [if_pos (by rw [hw]; rfl)]
  · intro s mv salt
    unfold reveal
    rw [hp2]
    dsimp only
    rw [if_pos (by rw [hw]; rfl)]
  · intro s
    exact join_full_fails hps

/-- C4 witness: applied to the concrete finished arena `arenaW3`
(reachable via create, join, commit, reveal; winner is account 1). -/
theorem c4_winner_final_witness :
    (commit arenaW3 2 [5] = .error .eArenaOver) ∧
    (reveal hashW arenaW3 2 0 [9] = .error .eArenaOver) ∧
    (∃ e, join hashW arenaW3 3 = .error e) := by
  have hreach : Reachable hashW arenaW3 :=
    .revealed arenaW2 1 2 [7] arenaW3
      (.committed arenaW1 1 [99] arenaW2
        (.joined arenaW0 2 arenaW1
          (.created [0] 1 arenaW0 (by rfl))
          (by rfl))
        (by rfl))
      (by rfl)
  obtain ⟨hc, hrv, hj⟩ := c4_winner_final hreach (by rfl : arenaW3.winner = some 1)
  exact ⟨hc 2 [5], hrv 2 0 [9], hj 3⟩

/-- C10: in every reachable arena each present player's `next_round` is
the arena round or its successor; `commit` performs no round check, so a
player with no pending commitment can commit whatever their `next_round`
is - in particular one whose `next_round` is already `round + 1` commits
early for the next round; and a commitment held by a player whose
`next_round` differs from the arena round is not revealable until the
round advances (`reveal` fails with the sequencing error). -/
theorem c10_next_round_window {hash : Bytes → Bytes} {a : Arena}
    (hr : Reachable hash a) :
    (a.player_one.next_round = a.round ∨
      a.player_one.next_round = a.round + 1) ∧
    (∀ p2, a.player_two = some p2 →
      p2.next_round = a.round ∨ p2.next_round = a.round + 1) ∧
    (∀ c, a.winner = none → a.player_two.isSome →
      a.player_one.next_attack = none →
      ∃ a', commit a a.player_one.account c = .ok a' ∧
        a'.player_one.next_attack = some c) ∧
    (∀ mv salt c, a.player_two.isSome → a.winner = none →
      a.player_one.next_attack = some c →
      ¬ a.player_one.next_round = a.round →
      reveal hash a a.player_one.account mv salt =
        .error .eMoveAlreadySubmitted) := by
  have hinv := reachable_inv hr
  refine ⟨hinv.2.2.1, hinv.2.2.2, ?_, ?_⟩
  · intro c hwn hps hna
    obtain ⟨p2, hp2⟩ := Option.isSome_iff_exists.mp hps
    unfold commit
    rw [hwn]
    rw [if_neg (by simp : ¬ ((none : Option Nat).isSome = true))]
    rw [hp2]
    dsimp only
    rw [if_pos rfl, hna]
    rw [if_neg (by simp : ¬ ((none : Option Bytes).isSome = true))]
    exact ⟨_, rfl, rfl⟩
  · intro mv salt c hps hwn hcomm hnr
    obtain ⟨p2, hp2⟩ := Option.isSome_iff_exists.mp hps
    unfold reveal
    rw [hp2]
    dsimp only
    rw [if_neg (by rw [hwn]; simp)]
    rw [if_pos rfl]
    have hcore : revealCore hash a.round a.player_one p2 mv salt
        = .error .eMoveAlreadySubmitted := by
      unfold revealCore
      simp only [hcomm]
      rw [if_neg hnr]
    rw [hcore]

/-- C10 witness: applied to the concrete joined arena `arenaW1`, where
player one can commit the digest `[99]`. -/
theorem c10_next_round_window_witness :
    (arenaW1.player_one.next_round = arenaW1.round ∨
      arenaW1.player_one.next_round = arenaW1.round + 1) ∧
    (∃ a', commit arenaW1 arenaW1.player_one.account [99] = .ok a' ∧
      a'.player_one.next_attack = some [99]) := by
  have hreach : Reachable hashW arenaW1 :=
    .joined arenaW0 2 arenaW1
      (.created [0] 1 arenaW0 (by rfl))
      (by rfl)
  obtain ⟨h1, h2, h3, h4⟩ := c10_next_round_window hreach
  exact ⟨h1, h3 [99] (by rfl) (by rfl) (by rfl)⟩

/-- C8: per player, hp never increases across any operation - a
successful `reveal` leaves the revealer's hp unchanged and the
defender's hp no larger, while `commit` and `join` leave hp exactly
unchanged - and the underlying `decrease_hp` is saturating subtraction:
the hp is a natural number that becomes exactly 0 whenever the damage
exceeds the remaining hp, so it is never negative. -/
theorem c8_hp_monotone_saturating :
    (∀ (hash : Bytes → Bytes) (a : Arena) (s mv : Nat) (salt : Bytes)
        (a' : Arena), reveal hash a s mv salt = .ok a' →
      a'.player_one.stats.hp ≤ a.player_one.stats.hp ∧
      (∀ p2 p2', a.player_two = some p2 → a'.player_two = some p2' →
        p2'.stats.hp ≤ p2.stats.hp)) ∧
    (∀ (a : Arena) (s : Nat) (c : Bytes) (a' : Arena),
      commit a s c = .ok a' →
      a'.player_one.stats.hp = a.player_one.stats.hp ∧
      (∀ p2 p2', a.player_two = some p2 → a'.player_two = some p2' →
        p2'.stats.hp = p2.stats.hp)) ∧
    (∀ (hash : Bytes → Bytes) (a : Arena) (s : Nat) (a' : Arena),
      join hash a s = .ok a' →
      a'.player_one.stats.hp = a.player_one.stats.hp) ∧
    (∀ (st : Stats) (v : Nat), (st.decrease_hp v).hp = st.hp - v ∧
      (st.hp < v → (st.decrease_hp v).hp = 0)) := by
  refine ⟨?_, ?_, ?_, ?_⟩
  · intro hash a s mv salt a' h
    obtain ⟨hwn, hovf, att, deff, att', deff', hanr, hatteq, hd1, hd2, hd3,
      hdhp, hsd, hrd, hw, hbr⟩ := reveal_ok_shape h
    rcases hbr with ⟨hs1, hattp, hdeffp, hp1', hp2'⟩ |
      ⟨hns1, hattp, hsacc, hdeffp, hp2', hp1'⟩
    · constructor
      · rw [hp1', hatteq, ← hattp]
      · intro p2 p2' hp2 hq
        rw [hdeffp] at hp2
        obtain rfl := Option.some.inj hp2
        rw [hp2'] at hq
        obtain rfl := Option.some.inj hq
        exact hdhp
    · constructor
      · rw [hp1']
        rw [hdeffp] at hdhp
        exact hdhp
      · intro p2 p2' hp2 hq
        rw [hattp] at hp2
        obtain rfl := Option.some.inj hp2
        rw [hp2'] at hq
        obtain rfl := Option.some.inj hq
        rw [hatteq]
  · intro a s c a' h
    obtain ⟨hwn, hwn', hps, hps', hrd, hsd, hacc, hnrp1, hstp1,
      hmapnr, hmapst, hmapacc⟩ := commit_ok h
    constructor
    · rw [hstp1]
    · intro p2 p2' hp2 hq
      rw [hp2, hq] at hmapst
      have hse := Option.some.inj hmapst
      exact congrArg Stats.hp hse
  · intro hash a s a' h
    obtain ⟨hne, hnone, hrd, hwn, hsd, hp1, p2, hp2, hacc, hna, hnr⟩ := join_ok h
    rw [hp1]
  · intro st v
    constructor
    · rw [decrease_hp_eq]
    · intro hlt
      rw [decrease_hp_eq]
      show st.hp - v = 0
      omega

/-- C8 witness: applied to the concrete reveal, commit and join steps of
the played-out game, plus a concrete saturation at 0. -/
theorem c8_hp_monotone_saturating_witness :
    (arenaW3.player_one.stats.hp ≤ arenaW2.player_one.stats.hp) ∧
    (arenaW2.player_one.stats.hp = arenaW1.player_one.stats.hp) ∧
    (arenaW1.player_one.stats.hp = arenaW0.player_one.stats.hp) ∧
    ((statsD.decrease_hp 501).hp = 0) := by
  obtain ⟨h1, h2, h3, h4⟩ := c8_hp_monotone_saturating
  exact ⟨(h1 hashW arenaW2 1 2 [7] arenaW3 (by rfl)).1,
    (h2 arenaW1 1 [99] arenaW2 (by rfl)).1,
    h3 hashW arenaW0 2 arenaW1 (by rfl),
    (h4 statsD 501).2 (by decide)⟩

/-- C7: every successful round random byte is
`derive(digest, 2)[round] mod 38 + 217`, lies in `[217, 255]` (in fact
in `[217, 254]`), and therefore can never trigger the damage engine's
random-byte precondition failure. -/
theorem c7_hit_rng_range {hash : Bytes → Bytes} {digest : Bytes}
    {round v : Nat}
    (h : hit_rng hash digest 2 round = .ok v) :
    (∃ b, (derive hash digest 2).get? round = some b ∧ v = b % 38 + 217) ∧
    217 ≤ v ∧ v ≤ 255 ∧
    (∀ atk dfd mp,
      physical_damage atk dfd mp v ≠ .error .eIncorrectRandomValue) := by
  unfold hit_rng at h
  split at h
  · rename_i b hb
    have hv := (Except.ok.inj h).symm
    have hv38 : v = b % 38 + 217 := by omega
    refine ⟨⟨b, hb, hv38⟩, by omega, by omega, ?_⟩
    intro atk dfd mp
    unfold physical_damage
    rw [if_pos (⟨by omega, by omega⟩ : 217 ≤ v ∧ v ≤ 255)]
    by_cases hmp : 0 < mp
    · rw [if_pos hmp]
      exact damage_ne_rand _ _ _ _ _ _
    · rw [if_neg hmp]
      simp
  · exact absurd h (by simp)

/-- C7 witness: applied to a concrete digest under the test hash, where
the derived byte is 3 and the round byte is 220. -/
theorem c7_hit_rng_range_witness :
    (∃ b, (derive testHash [1] 2).get? 0 = some b ∧ 220 = b % 38 + 217) ∧
    217 ≤ 220 ∧ (220 : Nat) ≤ 255 ∧
    (∀ atk dfd mp,
      physical_damage atk dfd mp 220 ≠ .error .eIncorrectRandomValue) :=
  @c7_hit_rng_range testHash [1] 0 220 (by rfl)

/-- C6: for every seed of at least 7 bytes, stat generation succeeds and
the five non-hp stats all lie in `[10, 50]` while the hp is at least
`10 * SCALING_FACTOR`. -/
theorem c6_stat_bounds {seed : Bytes} (h : 7 ≤ seed.length) :
    ∃ st, generate_stats seed = .ok st ∧
      (10 ≤ st.attack ∧ st.attack ≤ 50) ∧
      (10 ≤ st.defence ∧ st.defence ≤ 50) ∧
      (10 ≤ st.special_attack ∧ st.special_attack ≤ 50) ∧
      (10 ≤ st.special_defence ∧ st.special_defence ≤ 50) ∧
      (10 ≤ st.speed ∧ st.speed ≤ 50) ∧
      10 * SCALING_FACTOR ≤ st.hp := by
  obtain ⟨b0, b1, b2, b3, b4, b5, b6, rest, hseed⟩ := list_seven _ h
  subst hseed
  have h0 := smooth_spec b0
  have h1 := smooth_spec b1
  have h2 := smooth_spec b2
  have h3 := smooth_spec b3
  have h4 := smooth_spec b4
  have h5 := smooth_spec b5
  refine ⟨_, generate_stats_fields b0 b1 b2 b3 b4 b5 b6 rest, ?_⟩
  dsimp only
  unfold SCALING_FACTOR
  omega

/-- C6 witness: the bound theorem applied to the all-zero 7-byte seed. -/
theorem c6_stat_bounds_witness :
    ∃ st, generate_stats [0, 0, 0, 0, 0, 0, 0] = .ok st ∧
      (10 ≤ st.attack ∧ st.attack ≤ 50) ∧
      (10 ≤ st.defence ∧ st.defence ≤ 50) ∧
      (10 ≤ st.special_attack ∧ st.special_attack ≤ 50) ∧
      (10 ≤ st.special_defence ∧ st.special_defence ≤ 50) ∧
      (10 ≤ st.speed ∧ st.speed ≤ 50) ∧
      10 * SCALING_FACTOR ≤ st.hp :=
  @c6_stat_bounds [0, 0, 0, 0, 0, 0, 0] (by decide)

/-- C9: the smoothing intermediate `((b mod 50) + 50) / 2` already lies
in `[25, 49]`, so the fallback branch returning 10 is unreachable
(`smooth` always returns the intermediate), and every generated non-hp
stat lies in the tighter range `[25, 49]` with the hp in
`[35 * SCALING_FACTOR, 59 * SCALING_FACTOR]`, strictly inside the
documented 10-to-50 bound. -/
theorem c9_smooth_tight_bounds :
    (∀ v, smooth v = ((v % 50) + 50) / 2 ∧
      25 ≤ smooth v ∧ smooth v ≤ 49) ∧
    (∀ seed st, 7 ≤ seed.length → generate_stats seed = .ok st →
      (25 ≤ st.attack ∧ st.attack ≤ 49) ∧
      (25 ≤ st.defence ∧ st.defence ≤ 49) ∧
      (25 ≤ st.special_attack ∧ st.special_attack ≤ 49) ∧
      (25 ≤ st.special_defence ∧ st.special_defence ≤ 49) ∧
      (25 ≤ st.speed ∧ st.speed ≤ 49) ∧
      35 * SCALING_FACTOR ≤ st.hp ∧ st.hp ≤ 59 * SCALING_FACTOR) := by
  constructor
  · exact smooth_spec
  · intro seed st h hgen
    obtain ⟨b0, b1, b2, b3, b4, b5, b6, rest, hseed⟩ := list_seven _ h
    subst hseed
    rw [generate_stats_fields] at hgen
    obtain rfl := Except.ok.inj hgen
    have h0 := smooth_spec b0
    have h1 := smooth_spec b1
    have h2 := smooth_spec b2
    have h3 := smooth_spec b3
    have h4 := smooth_spec b4
    have h5 := smooth_spec b5
    dsimp only
    unfold SCALING_FACTOR
    omega

/-- C9 witness: the tight bounds applied to the byte 7 and to the
concrete stats generated from the seed `[1,2,3,4,5,6,8]`. -/
theorem c9_smooth_tight_bounds_witness :
    (smooth 7 = ((7 % 50) + 50) / 2 ∧ 25 ≤ smooth 7 ∧ smooth 7 ≤ 49) ∧
    (35 * SCALING_FACTOR ≤ statsW9.hp ∧ statsW9.hp ≤ 59 * SCALING_FACTOR) := by
  obtain ⟨h1, h2⟩ := c9_smooth_tight_bounds
  have hb := h2 [1, 2, 3, 4, 5, 6, 8] statsW9 (by decide) (by rfl)
  exact ⟨h1 7, hb.2.2.2.2.2⟩

set_option maxHeartbeats 1000000 in
/-- C5: for all attacker and defender stats, every move index in
`{0,1,2}` and every random byte in `[217, 255]`, whenever the attack
completes - the engine instead aborts (u64 overflow or division by
zero) on degenerate stats such as a zero defence - the damage it
subtracts from the defender's hp (saturating) is exactly the specified
formula: `levelMod`, `atkDef`, `base`, `randomFactor`, `raw` evaluated
in that fixed order with truncating division, scaled by the
effectiveness entry `[moveType][defenderType]` over 10, and by 15/10
exactly when the move's type equals the attacker's type, with move
power 40/60/80 indexed by the move. -/
theorem c5_damage_formula {atk dfd : Stats} {mv rng at0 dt0 : Nat}
    {arest drest : Bytes} {st' : Stats}
    (hmv : mv < 3) (hr1 : 217 ≤ rng) (hr2 : rng ≤ 255)
    (hat : atk.types = at0 :: arest) (hdt : dfd.types = dt0 :: drest)
    (hdt3 : dt0 < 3)
    (h : battle_attack atk dfd mv rng = .ok st') :
    st' = dfd.decrease_hp
      (spec_damage atk.level atk.attack dfd.defence at0 dt0 mv rng) := by
  obtain ⟨mp, row, eff, hmp, hrow, heff, hval⟩ :=
    battle_attack_ok_value hat hdt h
  subst hval
  interval_cases mv <;> interval_cases dt0 <;>
    (simp only [MOVES_POWER, List.get?, Option.some.injEq] at hmp
     subst hmp
     simp only [MOVES_EFFECTIVENESS, List.get?, Option.some.injEq] at hrow
     subst hrow
     simp only [List.get?, Option.some.injEq] at heff
     subst heff
     simp [damage_val, spec_damage, spec_move_power, spec_effectiveness,
       STAB_BONUS, EFF_SCALING])

/-- C5 witness: the formula equality at concrete stats, move 0 and
random byte 230, instantiated at the concrete successful attack. -/
theorem c5_damage_formula_witness :
    statsC5 = statsD.decrease_hp
      (spec_damage statsA.level statsA.attack statsD.defence 0 1 0 230) :=
  @c5_damage_formula statsA statsD 0 230 0 1 [] [] statsC5
    (by decide) (by decide) (by decide) (by rfl) (by rfl) (by decide)
    (by rfl)
